import Mathlib

/-!
Shallow embedding of the adaptive question-selection engine of
`src/server/src/services/questionService.ts`.

The Performance Store (`src/server/src/db/database.ts`) is an external
collaborator; it is modelled as an oracle (`Store`) whose four query
functions take the optional learner scope (`Option String`), exactly as the
database layer's `userId?: string` parameters do.  Every definition below
additionally returns the list of store queries it issues (a `Query` log),
so that claims about which queries are made, and in which scope, can be
stated.  Ambient randomness (`Math.random`, the comparator shuffle) is
modelled as an explicit oracle (`Rng`).  JavaScript numbers are modelled
as `ℚ` (weights, accuracies) and `ℤ` (the requested count).
-/

/-- `question_type` tag of a question (`"single" | "multi"`). -/
inductive QuestionType
  | single
  | multi
  deriving DecidableEq, Repr

/-- One answer option of a question (interface `AnswerOption`). -/
structure AnswerOption where
  letter : String
  text : String
  deriving DecidableEq, Repr

/-- The `Question` interface of `questionService.ts`. -/
structure Question where
  id : String
  text : String
  options : List AnswerOption
  correct_answers : List String
  question_type : QuestionType
  explanation : Option String
  source_file : String
  question_number : ℕ
  subtopic : String
  deriving DecidableEq, Repr

/-- One entry of the aggregate per-topic stats returned by
`getTopicStats` (`{ total: number; correct: number }`). -/
structure TopicStat where
  total : ℕ
  correct : ℕ
  deriving DecidableEq, Repr

/-- One row returned by `getResultsByQuestionId`; the selection engine
only reads its `is_correct` truthiness. -/
structure QuestionResult where
  is_correct : Bool
  deriving DecidableEq, Repr

/-- Which of the four Performance Store capabilities a query hits. -/
inductive QueryKind
  | topicStats
  | questionHistory
  | missedIds
  | answeredIds
  deriving DecidableEq, Repr

/-- A store query issued during one selection call: its kind, the learner
scope it was issued with (`none` = global/anonymous scope), and, for
per-question history queries, the question id. -/
structure Query where
  kind : QueryKind
  scope : Option String
  qid : Option String
  deriving DecidableEq, Repr

/-- The Performance Store oracle: the four read capabilities of
`database.ts`, each taking the optional learner scope (`userId?`). -/
structure Store where
  topicStats : Option String → List (String × TopicStat)
  resultsByQuestionId : Option String → String → List QuestionResult
  missedQuestionIds : Option String → List String
  answeredQuestionIds : Option String → List String

/-- Ambient randomness: the permutation produced by
`[...xs].sort(() => Math.random() - 0.5)` and the stream of
`Math.random()` draws consumed by the weighted sampler. -/
structure Rng where
  shuffle : List Question → List Question
  rand : ℕ → ℚ

/-- `xs.slice(0, count)` of a JavaScript array: a negative end index
counts from the end of the array. -/
def jsSliceTo {α : Type} (l : List α) (count : ℤ) : List α :=
  let e : ℤ := if count < 0 then max ((l.length : ℤ) + count) 0 else min count (l.length : ℤ)
  l.take e.toNat

/-- `getTopicAccuracy` of `questionService.ts`: `stats[subtopic]`, with a
default accuracy of `0.5` when the topic is absent or has `total === 0`;
always issues one (global-scope) `getTopicStats` query. -/
def getTopicAccuracy (store : Store) (subtopic : String) : ℚ × List Query :=
  let stats := store.topicStats none
  ( match stats.lookup subtopic with
    | none => 1/2
    | some topicStat => if topicStat.total = 0 then 1/2
        else (topicStat.correct : ℚ) / (topicStat.total : ℚ),
    [⟨QueryKind.topicStats, none, none⟩] )

/-- `getTopicWeights`: for each subtopic of the fixed registry
(`Object.keys(SUBTOPICS)`, supplied here as the parameter `registry`),
`weights[subtopic] = 1 - accuracy + 0.3`. -/
def getTopicWeights (registry : List String) (store : Store) :
    List (String × ℚ) × List Query :=
  ( registry.map (fun subtopic => (subtopic, 1 - (getTopicAccuracy store subtopic).1 + 3/10)),
    registry.flatMap (fun subtopic => (getTopicAccuracy store subtopic).2) )

/-- JavaScript `x || 1.0` applied to `topicWeights[question.subtopic]`:
`undefined` (absent key) and `0` are both falsy and give `1.0`. -/
def jsOrOne (x : Option ℚ) : ℚ :=
  match x with
  | none => 1
  | some w => if w = 0 then 1 else w

/-- `getQuestionWeight`: topic base weight (`|| 1.0` default), then a
`×1.5` boost when the last up-to-3 attempts are all incorrect and a
`×0.7` damp when they are all correct. -/
def getQuestionWeight (registry : List String) (store : Store) (q : Question) :
    ℚ × List Query :=
  let tw := getTopicWeights registry store
  let baseWeight := jsOrOne (tw.1.lookup q.subtopic)
  let history := store.resultsByQuestionId none q.id
  let w :=
    if history.length > 0 then
      let recent := history.take 3
      let correctCount := (recent.filter (fun r => r.is_correct)).length
      if correctCount = 0 then baseWeight * (3/2)
      else if correctCount = recent.length then baseWeight * (7/10)
      else baseWeight
    else baseWeight
  (w, tw.2 ++ [⟨QueryKind.questionHistory, none, some q.id⟩])

/-- The inner `for (j ...)` scan of `weightedRandomSelection`: walk the
remaining pool accumulating weights; the first index whose running sum
reaches `r` is selected (`remaining.splice(j, 1)` removes it). Returns the
selected question and the pool without it, or `none` when no index
satisfies `r ≤ cumulative`. -/
def scanPick (r : ℚ) (cumulative : ℚ) :
    List (Question × ℚ) → Option (Question × List (Question × ℚ))
  | [] => none
  | (q, w) :: rest =>
    if r ≤ cumulative + w then some (q, rest)
    else
      match scanPick r (cumulative + w) rest with
      | some (sel, rem) => some (sel, (q, w) :: rem)
      | none => none

/-- The outer `for (let i = 0; i < Math.min(count, remaining.length); i++)`
loop of `weightedRandomSelection`.  NOTE: as in the source, the bound
`Math.min(count, remaining.length)` is re-evaluated on every iteration
while `remaining` shrinks.  `fuel` only bounds the recursion; it is always
called with fuel larger than the possible number of iterations. -/
def selectionLoop (rand : ℕ → ℚ) (count : ℤ) :
    ℕ → ℕ → List (Question × ℚ) → List Question → List Question
  | 0, _, _, selected => selected.reverse
  | fuel + 1, i, remaining, selected =>
    if (i : ℤ) < min count (remaining.length : ℤ) then
      if remaining.length = 0 then selected.reverse
      else
        let totalWeight := (remaining.map Prod.snd).sum
        let r := rand i * totalWeight
        match scanPick r 0 remaining with
        | some (sel, rem) => selectionLoop rand count fuel (i + 1) rem (sel :: selected)
        | none => selectionLoop rand count fuel (i + 1) remaining selected
    else selected.reverse

/-- `weightedRandomSelection`: empty candidates short-circuit, per-candidate
weight computation (each issuing its own store queries), then the
without-replacement draw loop. -/
def weightedRandomSelection (registry : List String) (store : Store) (rand : ℕ → ℚ)
    (candidates : List Question) (count : ℤ) : List Question × List Query :=
  if candidates.length = 0 then ([], [])
  else
    ( selectionLoop rand count (candidates.length + 1) 0
        (candidates.map (fun q => (q, (getQuestionWeight registry store q).1))) [],
      candidates.flatMap (fun q => (getQuestionWeight registry store q).2) )

/-- The `if (subtopic) candidates = candidates.filter(...)` pre-step of
`selectQuestions`; an absent or empty-string subtopic is falsy. -/
def applyTopicFilter (subtopic : Option String) (qs : List Question) : List Question :=
  match subtopic with
  | some s => if s = "" then qs else qs.filter (fun q => q.subtopic == s)
  | none => qs

/-- `selectQuestions(count, mode, subtopic)` of `questionService.ts`.
The catalog (`loadQuestions()`) and the topic registry (`SUBTOPICS` keys)
are external inputs, passed as parameters.  The result carries the list of
Performance Store queries issued by the call.  `mode` is a `String`, as the
HTTP layer casts the raw query parameter into it. -/
def selectQuestions (catalog : List Question) (registry : List String) (store : Store)
    (rng : Rng) (count : ℤ) (mode : String) (subtopic : Option String) :
    List Question × List Query :=
  let candidates := applyTopicFilter subtopic catalog
  if mode = "random" then
    (jsSliceTo (rng.shuffle candidates) count, [])
  else if mode = "weak" then
    let stats := store.topicStats none
    let weakTopics := (stats.filter
        (fun p => decide (0 < p.2.total ∧ (p.2.correct : ℚ) / (p.2.total : ℚ) < 7/10))).map
      Prod.fst
    let narrowed := if weakTopics ≠ [] then
        candidates.filter (fun q => weakTopics.contains q.subtopic)
      else candidates
    let res := weightedRandomSelection registry store rng.rand narrowed count
    (res.1, ⟨QueryKind.topicStats, none, none⟩ :: res.2)
  else if mode = "missed" then
    let missedIds := store.missedQuestionIds none
    let narrowed := if missedIds ≠ [] then
        candidates.filter (fun q => missedIds.contains q.id)
      else candidates
    let res := weightedRandomSelection registry store rng.rand narrowed count
    (res.1, ⟨QueryKind.missedIds, none, none⟩ :: res.2)
  else if mode = "new" then
    let answeredIds := store.answeredQuestionIds none
    let narrowed := candidates.filter (fun q => !(answeredIds.contains q.id))
    (jsSliceTo (rng.shuffle narrowed) count, [⟨QueryKind.answeredIds, none, none⟩])
  else
    weightedRandomSelection registry store rng.rand candidates count

/-- A question record with only the fields the selection engine reads. -/
def mkQ (id subtopic : String) : Question :=
  ⟨id, "", [], [], QuestionType.single, none, "", 0, subtopic⟩

/-- A store with no recorded history at all (a brand-new learner / empty
database), in every scope. -/
def emptyStore : Store :=
  ⟨fun _ => [], fun _ _ => [], fun _ => [], fun _ => []⟩

/-- Deterministic randomness: the identity shuffle and a constant-zero
`Math.random()` stream. -/
def rngId : Rng := ⟨fun l => l, fun _ => 0⟩

/-- A two-question catalog on the single topic `"iam"`. -/
def catalog2 : List Question := [mkQ "a" "iam", mkQ "b" "iam"]

/-- A six-question catalog on the single topic `"iam"`. -/
def catalog6 : List Question :=
  [mkQ "q1" "iam", mkQ "q2" "iam", mkQ "q3" "iam", mkQ "q4" "iam", mkQ "q5" "iam",
    mkQ "q6" "iam"]

/-- A store in which both questions of `catalog2` have already been
answered (in every scope); no other history. -/
def storeAllAnswered : Store :=
  ⟨fun _ => [], fun _ _ => [], fun _ => [], fun _ => ["a", "b"]⟩

/-- A store whose global (anonymous) topic stats show `"iam"` weak at 20%
accuracy, while the learner `"u1"` has no history at all: global and
learner-scoped answers differ, so query scoping is observable. -/
def storeScoped : Store :=
  ⟨fun scope => match scope with
    | none => [("iam", ⟨10, 2⟩)]
    | some _ => [],
   fun _ _ => [], fun _ => [], fun _ => []⟩

/-- A store whose global topic stats show `"iam"` strong at 90% accuracy
(≥ 70%), so `mode=weak` finds no weak topic and must fall back. -/
def storeStrong : Store :=
  ⟨fun _ => [("iam", ⟨10, 9⟩)], fun _ _ => [], fun _ => [], fun _ => []⟩

/-- C1: the claim states that for `count ≤ 0` every mode returns an empty
sequence and issues no Performance Store queries.  The code has no such
pre-step: in `mode=random` a negative count reaches `slice(0, count)`,
whose negative end index counts from the end of the array, so
`count = -5` on a six-question catalog returns one question; and in
`mode=weak` with `count = 0` the call still issues its topic-stats and
per-candidate weight queries before the (empty) draw loop runs. -/
theorem c1_count_nonpositive_eval :
    (selectQuestions catalog6 ["iam"] emptyStore rngId (-5) "random" none).1.length = 1
    ∧ (selectQuestions catalog6 ["iam"] emptyStore rngId 0 "weak" none).1 = []
    ∧ (selectQuestions catalog6 ["iam"] emptyStore rngId 0 "weak" none).2 ≠ [] := by
  refine ⟨by with_unfolding_all rfl, by with_unfolding_all rfl, ?_⟩
  with_unfolding_all decide

/-- C2: the claim states that a mode-specific narrowing that empties the
pool falls back to the full topic-filtered pool.  In `mode=new` the code
filters out answered questions unconditionally and has no fallback: with
every catalog question answered and `count = 1 > 0`, the result is empty
even though the topic-filtered catalog is non-empty. -/
theorem c2_new_all_answered_eval :
    (selectQuestions catalog2 ["iam"] storeAllAnswered rngId 1 "new" none).1 = []
    ∧ applyTopicFilter none catalog2 ≠ [] := by
  refine ⟨by with_unfolding_all rfl, ?_⟩
  with_unfolding_all decide

/-- C3: the claim states that `selectQuestions` accepts an optional
learner id and scopes every store query by it.  The code's signature has
no learner parameter and every store call passes no scope: a `mode=weak`
call against a store whose global and learner-scoped stats differ issues
only global-scope (`none`) queries. -/
theorem c3_global_scope_eval :
    (selectQuestions catalog2 ["iam"] storeScoped rngId 1 "weak" none).2 ≠ []
    ∧ ∀ q ∈ (selectQuestions catalog2 ["iam"] storeScoped rngId 1 "weak" none).2,
        q.scope = none := by
  constructor
  · with_unfolding_all decide
  · with_unfolding_all decide

/-- C4: the claim states that `mode=adaptive` with a zero-history learner
issues no topic-stats and no per-question history queries and returns
`min(count, pool size)` questions.  The code has no zero-history shortcut:
with an empty store it still issues topic-stats and per-question history
queries for every candidate, and (because the draw loop's bound shrinks
with the pool) returns 1 question where `min(2, 2) = 2` were requested. -/
theorem c4_adaptive_no_history_eval :
    (selectQuestions catalog2 ["iam"] emptyStore rngId 2 "adaptive" none).2.filter
        (fun q => q.kind == QueryKind.topicStats) ≠ []
    ∧ (selectQuestions catalog2 ["iam"] emptyStore rngId 2 "adaptive" none).2.filter
        (fun q => q.kind == QueryKind.questionHistory) ≠ []
    ∧ (selectQuestions catalog2 ["iam"] emptyStore rngId 2 "adaptive" none).1.length
        ≠ min 2 catalog2.length := by
  refine ⟨?_, ?_, ?_⟩ <;> with_unfolding_all decide

/-- C8: the claim states the Weighted Sampler returns exactly
`min(K, pool size)` items.  The code's outer loop bound
`i < Math.min(count, remaining.length)` is re-evaluated while `remaining`
shrinks, so a two-candidate pool with `count = 2` yields a single item. -/
theorem c8_sampler_shrinking_bound_eval :
    (weightedRandomSelection [] emptyStore (fun _ => 0) catalog2 2).1 = [mkQ "a" "iam"]
    ∧ (weightedRandomSelection [] emptyStore (fun _ => 0) catalog2 2).1.length
        ≠ min 2 catalog2.length := by
  refine ⟨by with_unfolding_all rfl, ?_⟩
  with_unfolding_all decide

/-- C9: the claim states that `mode=weak` with no weak topic falls back to
the full catalog and returns `min(count, catalog size)` questions.  The
fallback happens, but the draw loop's shrinking bound makes a
two-question catalog with `count = 2` yield one question, not
`min(2, 2) = 2`; the store's only topic is at 90% accuracy, so no topic
is weak. -/
theorem c9_weak_fallback_length_eval :
    (selectQuestions catalog2 ["iam"] storeStrong rngId 2 "weak" none).1.length = 1
    ∧ (1 : ℕ) ≠ min 2 catalog2.length
    ∧ ∀ p ∈ storeStrong.topicStats none,
        ¬((p.2.correct : ℚ) / (p.2.total : ℚ) < 7/10) := by
  refine ⟨by with_unfolding_all rfl, by decide, ?_⟩
  with_unfolding_all decide

/-- The per-topic accuracy exactly as the claims word it: `correct/total`
when the topic's recorded `total > 0`, and the neutral default `0.5`
otherwise (topic absent from the aggregate stats, or `total = 0`). -/
def accuracySpec (store : Store) (topic : String) : ℚ :=
  match (store.topicStats none).lookup topic with
  | some st => if 0 < st.total then (st.correct : ℚ) / (st.total : ℚ) else 1/2
  | none => 1/2

/-- The boost/damp multiplier exactly as claim C7 words it, over the at
most 3 most recent attempts recorded for the question. -/
def questionMultiplierSpec (store : Store) (q : Question) : ℚ :=
  let recent := (store.resultsByQuestionId none q.id).take 3
  if recent ≠ [] ∧ ∀ r ∈ recent, r.is_correct = false then 3/2
  else if recent ≠ [] ∧ ∀ r ∈ recent, r.is_correct = true then 7/10
  else 1

theorem lookup_map_val {β : Type} {f : String → β} {l : List String} {k : String} {w : β}
    (h : (l.map (fun t => (t, f t))).lookup k = some w) : w = f k := by
  obtain ⟨l₁, l₂, he, -⟩ := List.lookup_eq_some_iff.mp h
  have hmem : (k, w) ∈ l.map (fun t => (t, f t)) := by
    rw [he]; exact List.mem_append_right _ (List.mem_cons_self _ _)
  obtain ⟨t, -, ht⟩ := List.mem_map.mp hmem
  obtain ⟨rfl, rfl⟩ := Prod.mk.injEq _ _ _ _ ▸ ht
  rfl

theorem mem_of_lookup {α β : Type} [BEq α] [LawfulBEq α] {l : List (α × β)} {k : α} {b : β}
    (h : l.lookup k = some b) : (k, b) ∈ l := by
  obtain ⟨l₁, l₂, rfl, -⟩ := List.lookup_eq_some_iff.mp h
  exact List.mem_append_right _ (List.mem_cons_self _ _)

/-- The code's `getTopicAccuracy` agrees with the claims' wording of the
accuracy (the code tests `total === 0`, the claims test `total > 0`). -/
theorem getTopicAccuracy_eq_spec (store : Store) (topic : String) :
    (getTopicAccuracy store topic).1 = accuracySpec store topic := by
  cases h : (store.topicStats none).lookup topic with
  | none => simp [getTopicAccuracy, accuracySpec, h]
  | some st =>
    rcases Nat.eq_zero_or_pos st.total with h0 | h0
    · simp [getTopicAccuracy, accuracySpec, h, h0]
    · simp [getTopicAccuracy, accuracySpec, h, Nat.pos_iff_ne_zero.mp h0, h0]

/-- Aggregate stats are well-formed when no topic records more correct
answers than total attempts (true of the store's `SUM(is_correct)` over
`COUNT(*)` aggregation). -/
def statsWF (store : Store) : Prop :=
  ∀ p ∈ store.topicStats none, p.2.correct ≤ p.2.total

theorem getTopicAccuracy_le_one (store : Store) (topic : String) (hwf : statsWF store) :
    (getTopicAccuracy store topic).1 ≤ 1 := by
  cases h : (store.topicStats none).lookup topic with
  | none => simp [getTopicAccuracy, h]; norm_num
  | some st =>
    by_cases h0 : st.total = 0
    · simp [getTopicAccuracy, h, h0]; norm_num
    · simp only [getTopicAccuracy, h, h0, if_false]
      have hc : st.correct ≤ st.total := hwf _ (mem_of_lookup h)
      have hpos : (0 : ℚ) < st.total := by
        exact_mod_cast Nat.pos_of_ne_zero h0
      rw [div_le_one hpos]
      exact_mod_cast hc

theorem getTopicWeights_lookup (registry : List String) (store : Store) (topic : String)
    (hmem : topic ∈ registry) :
    (getTopicWeights registry store).1.lookup topic
      = some (1 - accuracySpec store topic + 3/10) := by
  simp only [getTopicWeights]
  rw [List.lookup_graph (fun t => 1 - (getTopicAccuracy store t).1 + 3/10) hmem,
    getTopicAccuracy_eq_spec]

theorem accuracySpec_no_attempts (store : Store) (topic : String)
    (h0 : ∀ st, (store.topicStats none).lookup topic = some st → st.total = 0) :
    accuracySpec store topic = 1/2 := by
  cases h : (store.topicStats none).lookup topic with
  | none => simp [accuracySpec, h]
  | some st => simp [accuracySpec, h, h0 st h]

/-- C5 counterexample: the claim says an unattempted topic gets weight
exactly 1.0, but on a store with no recorded attempts the Topic Weight
Calculator assigns `1 - 0.5 + 0.3 = 0.8`, which is not 1. -/
theorem c5_unattempted_weight_counterexample :
    (getTopicWeights ["iam"] emptyStore).1.lookup "iam" = some (4/5)
    ∧ ((4 : ℚ)/5 ≠ 1) := by
  refine ⟨by with_unfolding_all rfl, ?_⟩
  with_unfolding_all decide

/-- C5 (amended): a topic in the registry with no recorded attempts
(absent from the aggregate stats, or recorded with `total = 0`) is
assigned a weight of exactly 0.8 by the Topic Weight Calculator. -/
theorem c5_unattempted_weight_amended (registry : List String) (store : Store)
    (topic : String) (hmem : topic ∈ registry)
    (h0 : ∀ st, (store.topicStats none).lookup topic = some st → st.total = 0) :
    (getTopicWeights registry store).1.lookup topic = some (4/5) := by
  rw [getTopicWeights_lookup registry store topic hmem,
    accuracySpec_no_attempts store topic h0]
  simp only [Option.some.injEq]
  norm_num

theorem c5_unattempted_weight_amended_witness :
    "s3" ∈ ["s3"] ∧ (getTopicWeights ["s3"] emptyStore).1.lookup "s3" = some (4/5) :=
  ⟨by decide, c5_unattempted_weight_amended ["s3"] emptyStore "s3" (by decide)
    (fun st h => by simp [emptyStore] at h)⟩

/-- C6: for every topic of the fixed registry the Topic Weight Calculator
returns `1 - accuracy + 0.3`, where the accuracy is `correct/total` when
the topic's `total > 0` and `0.5` otherwise; hence a topic at 100%
accuracy weighs 0.3, a topic at 0% accuracy weighs 1.3, and a topic with
no recorded attempts weighs 0.8. -/
theorem c6_topic_weight_formula (registry : List String) (store : Store) (topic : String)
    (hmem : topic ∈ registry) :
    (getTopicWeights registry store).1.lookup topic
        = some (1 - accuracySpec store topic + 3/10)
    ∧ (∀ st, (store.topicStats none).lookup topic = some st → 0 < st.total →
        st.correct = st.total →
        (getTopicWeights registry store).1.lookup topic = some (3/10))
    ∧ (∀ st, (store.topicStats none).lookup topic = some st → 0 < st.total →
        st.correct = 0 →
        (getTopicWeights registry store).1.lookup topic = some (13/10))
    ∧ ((∀ st, (store.topicStats none).lookup topic = some st → st.total = 0) →
        (getTopicWeights registry store).1.lookup topic = some (4/5)) := by
  have hmain := getTopicWeights_lookup registry store topic hmem
  refine ⟨hmain, ?_, ?_, ?_⟩
  · intro st hst hpos hce
    have hne : (st.total : ℚ) ≠ 0 := by exact_mod_cast hpos.ne'
    have hacc : accuracySpec store topic = 1 := by
      simp [accuracySpec, hst, hpos, hce, div_self hne]
    rw [hmain, hacc]
    simp only [Option.some.injEq]
    norm_num
  · intro st hst hpos hc0
    have hacc : accuracySpec store topic = 0 := by
      simp [accuracySpec, hst, hpos, hc0]
    rw [hmain, hacc]
    simp only [Option.some.injEq]
    norm_num
  · intro h0
    rw [hmain, accuracySpec_no_attempts store topic h0]
    simp only [Option.some.injEq]
    norm_num

theorem getTopicWeights_val_pos (registry : List String) (store : Store) {k : String} {w : ℚ}
    (hwf : statsWF store) (h : (getTopicWeights registry store).1.lookup k = some w) :
    0 < w := by
  have hw : w = 1 - (getTopicAccuracy store k).1 + 3/10 := by
    apply lookup_map_val (f := fun t => 1 - (getTopicAccuracy store t).1 + 3/10)
    simpa [getTopicWeights] using h
  have hacc := getTopicAccuracy_le_one store k hwf
  rw [hw]
  linarith

/-- C7: the Question Weight Calculator returns `base × m`: `base` is the
topic-weight mapping's entry for the question's topic (1.0 when absent),
and over the at most 3 most recent attempts for this question, `m = 1.5`
when there is at least one and all are incorrect, `m = 0.7` when the set
is non-empty and all are correct, and `m = 1` otherwise. -/
theorem c7_question_weight (registry : List String) (store : Store) (q : Question)
    (hwf : statsWF store) :
    (getQuestionWeight registry store q).1 =
      (((getTopicWeights registry store).1.lookup q.subtopic).getD 1)
        * questionMultiplierSpec store q := by
  have hbase : jsOrOne ((getTopicWeights registry store).1.lookup q.subtopic)
      = ((getTopicWeights registry store).1.lookup q.subtopic).getD 1 := by
    cases h : (getTopicWeights registry store).1.lookup q.subtopic with
    | none => rfl
    | some w =>
      have hpos := getTopicWeights_val_pos registry store hwf h
      simp [jsOrOne, hpos.ne']
  simp only [getQuestionWeight, hbase]
  cases hH : store.resultsByQuestionId none q.id with
  | nil =>
    simp [questionMultiplierSpec, hH]
  | cons r t =>
    have hlen : 0 < (r :: t).length := Nat.succ_pos _
    have hne : ((r :: t).take 3 : List QuestionResult) ≠ [] := by
      simp [List.take_succ_cons]
    simp only [questionMultiplierSpec, hH]
    rw [if_pos hlen]
    by_cases hcc0 : (((r :: t).take 3).filter (fun x => x.is_correct)).length = 0
    · have hall : ∀ x ∈ (r :: t).take 3, x.is_correct = false := by
        intro x hx
        have h1 := List.filter_eq_nil_iff.mp (List.length_eq_zero.mp hcc0) x hx
        simpa using h1
      rw [if_pos hcc0, if_pos ⟨hne, hall⟩]
    · rw [if_neg hcc0]
      by_cases hccL : (((r :: t).take 3).filter (fun x => x.is_correct)).length
          = ((r :: t).take 3).length
      · have hall : ∀ x ∈ (r :: t).take 3, x.is_correct = true := by
          intro x hx
          simpa using List.filter_length_eq_length.mp hccL x hx
        have hnotall : ¬(((r :: t).take 3 : List QuestionResult) ≠ []
            ∧ ∀ x ∈ (r :: t).take 3, x.is_correct = false) := by
          rintro ⟨-, hf⟩
          have hr : r ∈ (r :: t).take 3 := by simp [List.take_succ_cons]
          have hf' := hf r hr
          rw [hall r hr] at hf'
          exact Bool.noConfusion hf'
        rw [if_pos hccL, if_neg hnotall, if_pos ⟨hne, hall⟩]
      · rw [if_neg hccL]
        have hn1 : ¬(((r :: t).take 3 : List QuestionResult) ≠ []
            ∧ ∀ x ∈ (r :: t).take 3, x.is_correct = false) := by
          rintro ⟨-, hf⟩
          apply hcc0
          rw [List.length_eq_zero]
          exact List.filter_eq_nil_iff.mpr (fun x hx => by simp [hf x hx])
        have hn2 : ¬(((r :: t).take 3 : List QuestionResult) ≠ []
            ∧ ∀ x ∈ (r :: t).take 3, x.is_correct = true) := by
          rintro ⟨-, ht'⟩
          exact hccL (List.filter_length_eq_length.mpr (fun x hx => by simp [ht' x hx]))
        rw [if_neg hn1, if_neg hn2, mul_one]

/-- A store with one recorded topic (70% accuracy) and a mixed recent
history for question `"a"`. -/
def storeC7 : Store :=
  ⟨fun _ => [("iam", ⟨10, 7⟩)],
   fun _ qid => if qid = "a" then [⟨false⟩, ⟨false⟩, ⟨true⟩, ⟨true⟩] else [],
   fun _ => [], fun _ => []⟩

theorem c7_question_weight_witness :
    statsWF storeC7
    ∧ (getQuestionWeight ["iam"] storeC7 (mkQ "a" "iam")).1 =
      (((getTopicWeights ["iam"] storeC7).1.lookup (mkQ "a" "iam").subtopic).getD 1)
        * questionMultiplierSpec storeC7 (mkQ "a" "iam") :=
  ⟨by simp [statsWF, storeC7],
    c7_question_weight ["iam"] storeC7 (mkQ "a" "iam") (by simp [statsWF, storeC7])⟩

/-- C10: calling `selectQuestions` with any mode string outside
{adaptive, random, weak, missed, new} behaves identically to
`mode = "adaptive"`: the dispatch's default branch is shared with the
adaptive case, so an unrecognized mode never fails and never returns
empty merely because the mode is unknown. -/
theorem c10_unknown_mode_eq_adaptive (catalog : List Question) (registry : List String)
    (store : Store) (rng : Rng) (count : ℤ) (subtopic : Option String) (mode : String)
    (h : mode ∉ (["adaptive", "random", "weak", "missed", "new"] : List String)) :
    selectQuestions catalog registry store rng count mode subtopic =
      selectQuestions catalog registry store rng count "adaptive" subtopic := by
  have h1 : ¬(mode = "random") := fun e => h (by simp [e])
  have h2 : ¬(mode = "weak") := fun e => h (by simp [e])
  have h3 : ¬(mode = "missed") := fun e => h (by simp [e])
  have h4 : ¬(mode = "new") := fun e => h (by simp [e])
  simp only [selectQuestions, if_neg h1, if_neg h2, if_neg h3, if_neg h4,
    String.reduceEq, if_false]

theorem c10_unknown_mode_eq_adaptive_witness :
    "practice" ∉ (["adaptive", "random", "weak", "missed", "new"] : List String)
    ∧ selectQuestions catalog2 ["iam"] emptyStore rngId 2 "practice" none =
        selectQuestions catalog2 ["iam"] emptyStore rngId 2 "adaptive" none :=
  ⟨by decide,
    c10_unknown_mode_eq_adaptive catalog2 ["iam"] emptyStore rngId 2 none "practice"
      (by decide)⟩

/-- A store with one recorded topic `"iam"` at 25% accuracy (1 of 4). -/
def storeC6 : Store :=
  ⟨fun _ => [("iam", ⟨4, 1⟩)], fun _ _ => [], fun _ => [], fun _ => []⟩

theorem c6_topic_weight_formula_witness :
    "iam" ∈ ["iam", "ec2"]
    ∧ ((getTopicWeights ["iam", "ec2"] storeC6).1.lookup "iam"
          = some (1 - accuracySpec storeC6 "iam" + 3/10)
        ∧ (∀ st, (storeC6.topicStats none).lookup "iam" = some st → 0 < st.total →
            st.correct = st.total →
            (getTopicWeights ["iam", "ec2"] storeC6).1.lookup "iam" = some (3/10))
        ∧ (∀ st, (storeC6.topicStats none).lookup "iam" = some st → 0 < st.total →
            st.correct = 0 →
            (getTopicWeights ["iam", "ec2"] storeC6).1.lookup "iam" = some (13/10))
        ∧ ((∀ st, (storeC6.topicStats none).lookup "iam" = some st → st.total = 0) →
            (getTopicWeights ["iam", "ec2"] storeC6).1.lookup "iam" = some (4/5))) :=
  ⟨by decide, c6_topic_weight_formula ["iam", "ec2"] storeC6 "iam" (by decide)⟩
